import Mathlib

/-!
Verification of the dwmstatus metric/rendering core (`src/dwmstatus.cpp`, v2
variant unless noted).  Machine behavior is embedded shallowly: byte strings
are `List Nat` (each entry a byte value), C `double` arithmetic on exactly
sampled values is modelled over `ℚ`, C `size_t` subtraction wraps modulo
`2^64`, and a C `int(double)` cast truncates toward zero.  A floating
division followed by an undefined cast (NaN to int) is modelled as `none`.
-/

/-- The palette enum from the source: `NORMAL = 1` through `GREEN = 8`. -/
inductive Color where
  | NORMAL
  | SELECTED
  | RED
  | ORANGE
  | YELLOW
  | BLUE
  | CYAN
  | GREEN
deriving DecidableEq, Repr

/-- Numeric value of each palette entry, as assigned by the C enum
(`NORMAL = 1`, the rest consecutive). -/
def Color.val : Color → Nat
  | .NORMAL => 1
  | .SELECTED => 2
  | .RED => 3
  | .ORANGE => 4
  | .YELLOW => 5
  | .BLUE => 6
  | .CYAN => 7
  | .GREEN => 8

/-- ASCII bytes of a string literal. -/
def strBytes (s : String) : List Nat :=
  s.toList.map Char.toNat

/-- `Metric::ColorScope` (v2, dwmstatus.cpp lines 556-571): the constructor
writes the color byte and the destructor writes `'\x01'`, each only when the
color is not `NORMAL`. -/
def colorScope (c : Color) (txt : List Nat) : List Nat :=
  if c ≠ Color.NORMAL then c.val :: txt ++ [1] else txt

/-- `operator<<(stream, const Metric &)` (dwmstatus.cpp lines 576-585): if
`metric.color() != NORMAL`, stream the rendered text inside a `ColorScope`;
otherwise stream the text alone. -/
def metricEmit (c : Color) (txt : List Nat) : List Nat :=
  if c ≠ Color.NORMAL then colorScope c txt else txt

/-- `Load::color` (dwmstatus.cpp lines 632-641): one-minute load versus the
core count; `3*ncpu/2` is C integer division, hence the floor. -/
def loadColor (one : ℚ) (ncpu : ℕ) : Color :=
  if one > 2 * (ncpu : ℚ) then Color.RED
  else if one > ((3 * ncpu / 2 : ℕ) : ℚ) then Color.ORANGE
  else if one > (ncpu : ℚ) then Color.YELLOW
  else Color.BLUE

/-- Severity order of the bands `Load::color` can return: Blue is calmest,
Red is the most severe. -/
def loadRank : Color → Nat
  | .YELLOW => 1
  | .ORANGE => 2
  | .RED => 3
  | _ => 0

/-- The four fields `Meminfo` parses out of `/proc/meminfo`
(dwmstatus.cpp lines 760-777), in kilobytes. -/
structure Meminfo where
  total : ℕ
  mfree : ℕ
  buff : ℕ
  cach : ℕ

/-- `Meminfo::color` (dwmstatus.cpp lines 778-786). -/
def Meminfo.color (m : Meminfo) : Color :=
  if (m.mfree + m.cach) * 10 < m.total then Color.RED
  else if (m.mfree + m.cach) * 5 < m.total then Color.ORANGE
  else if (m.mfree + m.cach) * 3 < m.total then Color.YELLOW
  else Color.GREEN

/-- C1: streaming a metric through `operator<<` yields the severity byte,
then the rendered text, then the terminator byte 0x01 when the severity is
not `NORMAL`; and yields the rendered text alone when it is `NORMAL`. -/
theorem metric_emit_color_markers (c : Color) (txt : List Nat) :
    (c ≠ Color.NORMAL → metricEmit c txt = c.val :: txt ++ [1]) ∧
    (c = Color.NORMAL → metricEmit c txt = txt) := by
  constructor
  · intro h
    simp [metricEmit, colorScope, h]
  · intro h
    simp [metricEmit, h]

/-- Witness for C1 at a concrete colored and a concrete normal metric. -/
theorem metric_emit_color_markers_witness :
    metricEmit Color.GREEN (strBytes "42C") =
      Color.GREEN.val :: strBytes "42C" ++ [1] ∧
    metricEmit Color.NORMAL (strBytes "::") = strBytes "::" := by
  exact ⟨(metric_emit_color_markers Color.GREEN (strBytes "42C")).1 (by decide),
         (metric_emit_color_markers Color.NORMAL (strBytes "::")).2 rfl⟩

/-- C2 counterexample: at one core and one-minute load 1.2, the claim's
Yellow condition `n < a ≤ 1.5·n` holds, but the code compares against the
integer quotient `3*1/2 = 1` and returns Orange, not Yellow. -/
theorem load_claimed_bands_false :
    ¬ (loadColor (6/5 : ℚ) 1 = Color.YELLOW ↔
       ((1 : ℚ) < 6/5 ∧ (6/5 : ℚ) ≤ (3/2) * 1)) := by
  intro h
  have h2 : loadColor (6/5 : ℚ) 1 = Color.ORANGE := by
    norm_num [loadColor]
  have h3 : loadColor (6/5 : ℚ) 1 = Color.YELLOW := h.mpr (by norm_num)
  rw [h2] at h3
  exact absurd h3 (by decide)

/-- C2 amended: the Load bands use the integer quotient `3*n/2` as the
Orange/Yellow boundary: Red iff `a > 2n`, Orange iff `⌊3n/2⌋ < a ≤ 2n`,
Yellow iff `n < a ≤ ⌊3n/2⌋`, Blue iff `a ≤ n`. -/
theorem load_color_bands (a : ℚ) (n : ℕ) :
    (loadColor a n = Color.RED ↔ 2 * (n : ℚ) < a) ∧
    (loadColor a n = Color.ORANGE ↔
      ((3 * n / 2 : ℕ) : ℚ) < a ∧ a ≤ 2 * (n : ℚ)) ∧
    (loadColor a n = Color.YELLOW ↔
      (n : ℚ) < a ∧ a ≤ ((3 * n / 2 : ℕ) : ℚ)) ∧
    (loadColor a n = Color.BLUE ↔ a ≤ (n : ℚ)) := by
  have k1 : ((3 * n / 2 : ℕ) : ℚ) ≤ 2 * (n : ℚ) := by
    have : ((3 * n / 2 : ℕ) : ℚ) ≤ ((2 * n : ℕ) : ℚ) :=
      Nat.cast_le.mpr (by omega)
    calc ((3 * n / 2 : ℕ) : ℚ) ≤ ((2 * n : ℕ) : ℚ) := this
      _ = 2 * (n : ℚ) := by push_cast; ring
  have k2 : (n : ℚ) ≤ ((3 * n / 2 : ℕ) : ℚ) := Nat.cast_le.mpr (by omega)
  unfold loadColor
  split_ifs with h1 h2 h3
  · exact ⟨⟨fun _ => h1, fun _ => rfl⟩,
      ⟨fun hh => absurd hh (by decide),
       fun hh => by exact absurd hh.2 (by exact not_le.mpr h1)⟩,
      ⟨fun hh => absurd hh (by decide),
       fun hh => by exfalso; linarith [hh.2]⟩,
      ⟨fun hh => absurd hh (by decide), fun hh => by exfalso; linarith⟩⟩
  · exact ⟨⟨fun hh => absurd hh (by decide), fun hh => absurd hh h1⟩,
      ⟨fun _ => ⟨h2, le_of_not_lt h1⟩, fun _ => rfl⟩,
      ⟨fun hh => absurd hh (by decide),
       fun hh => by exact absurd hh.2 (by exact not_le.mpr h2)⟩,
      ⟨fun hh => absurd hh (by decide), fun hh => by exfalso; linarith⟩⟩
  · exact ⟨⟨fun hh => absurd hh (by decide), fun hh => absurd hh h1⟩,
      ⟨fun hh => absurd hh (by decide), fun hh => absurd hh.1 h2⟩,
      ⟨fun _ => ⟨h3, le_of_not_lt h2⟩, fun _ => rfl⟩,
      ⟨fun hh => absurd hh (by decide),
       fun hh => by exact absurd hh (by exact not_le.mpr h3)⟩⟩
  · exact ⟨⟨fun hh => absurd hh (by decide), fun hh => absurd hh h1⟩,
      ⟨fun hh => absurd hh (by decide), fun hh => absurd hh.1 h2⟩,
      ⟨fun hh => absurd hh (by decide), fun hh => absurd hh.1 h3⟩,
      ⟨fun _ => le_of_not_lt h3, fun _ => rfl⟩⟩

/-- C8 counterexample: at four cores a one-minute load exactly equal to the
core count falls in the Blue band, not the Yellow band the claim states
(escalation needs a strictly greater load). -/
theorem load_boundary_not_yellow :
    loadColor (4 : ℚ) 4 = Color.BLUE ∧ Color.BLUE ≠ Color.YELLOW := by
  constructor
  · norm_num [loadColor]
  · decide

/-- C8 amended: a one-minute load exactly equal to the core count lands in
the Blue band (strictly greater is needed to escalate), and the severity
rank (Blue < Yellow < Orange < Red) of `Load::color` is monotonically
non-decreasing in the load value. -/
theorem load_boundary_and_monotone :
    (∀ n : ℕ, loadColor (n : ℚ) n = Color.BLUE) ∧
    (∀ (n : ℕ) (a b : ℚ), a ≤ b →
      loadRank (loadColor a n) ≤ loadRank (loadColor b n)) := by
  constructor
  · intro n
    have hn : (0 : ℚ) ≤ (n : ℚ) := Nat.cast_nonneg n
    have k2 : (n : ℚ) ≤ ((3 * n / 2 : ℕ) : ℚ) := Nat.cast_le.mpr (by omega)
    unfold loadColor
    rw [if_neg (by linarith), if_neg (by linarith), if_neg (by linarith)]
  · intro n a b hab
    have k1 : ((3 * n / 2 : ℕ) : ℚ) ≤ 2 * (n : ℚ) := by
      have : ((3 * n / 2 : ℕ) : ℚ) ≤ ((2 * n : ℕ) : ℚ) :=
        Nat.cast_le.mpr (by omega)
      calc ((3 * n / 2 : ℕ) : ℚ) ≤ ((2 * n : ℕ) : ℚ) := this
        _ = 2 * (n : ℚ) := by push_cast; ring
    have k2 : (n : ℚ) ≤ ((3 * n / 2 : ℕ) : ℚ) := Nat.cast_le.mpr (by omega)
    unfold loadColor
    split_ifs
    all_goals simp only [loadRank]
    any_goals norm_num
    all_goals linarith

/-- Witness for C8's amended theorem at concrete inputs. -/
theorem load_boundary_and_monotone_witness :
    loadColor ((4 : ℕ) : ℚ) 4 = Color.BLUE ∧
    loadRank (loadColor 1 2) ≤ loadRank (loadColor 5 2) := by
  exact ⟨load_boundary_and_monotone.1 4,
         load_boundary_and_monotone.2 2 1 5 (by norm_num)⟩

/-- C9: `Meminfo::color` reads only `total`, `mfree` and `cach`; two
readings that differ only in the `buff` field get the same band. -/
theorem meminfo_color_ignores_buffers
    (total mfree cach b1 b2 : ℕ) :
    Meminfo.color ⟨total, mfree, b1, cach⟩ =
    Meminfo.color ⟨total, mfree, b2, cach⟩ := rfl

/-- The `Bar` glyph fields (dwmstatus.cpp lines 594-607): position, size,
skip count (all C `int`), fill flag and palette color. -/
structure Bar where
  x : ℤ
  y : ℤ
  w : ℤ
  h : ℤ
  skip : ℤ
  filled : Bool
  c : Color

/-- View of a C `char` holding the integer `z`, as the byte it occupies
(two's complement, modulo 256). -/
def byteOf (z : ℤ) : ℕ := (z % 256).toNat

/-- `Bar::operator std::string` (dwmstatus.cpp lines 609-622): byte 0 is the
palette value with bit 7 set and bit 6 set iff filled; bytes 1-5 are the
five fields, each biased by +1. -/
def Bar.encode (b : Bar) : List Nat :=
  [b.c.val ||| 128 ||| (if b.filled then 64 else 0),
   byteOf (b.x + 1), byteOf (b.y + 1), byteOf (b.w + 1), byteOf (b.h + 1),
   byteOf (b.skip + 1)]

/-- The decoded form of a bar glyph: palette index, unbiased fields, fill
flag. -/
structure DecodedBar where
  color : ℕ
  x : ℕ
  y : ℕ
  w : ℕ
  h : ℕ
  skip : ℕ
  filled : Bool
deriving DecidableEq, Repr

/-- Modelled from the spec: the consuming status-bar drawer that decodes
this wire format lives in the window manager, not in this repository.  Per
the spec's format (byte 0 = palette index OR 0x80 OR 0x40-if-filled,
bytes 1-5 = fields biased by +1), decoding checks the 0x80 marker bit,
strips the flag bits from byte 0, and removes the +1 bias from the rest. -/
def Bar.decode (bs : List Nat) : Option DecodedBar :=
  match bs with
  | [b0, b1, b2, b3, b4, b5] =>
    if b0 &&& 128 = 128 then
      some { color := b0 &&& 63,
             x := b1 - 1, y := b2 - 1, w := b3 - 1, h := b4 - 1,
             skip := b5 - 1,
             filled := if b0 &&& 64 = 64 then true else false }
    else none
  | _ => none

/-- C6: encoding a bar glyph yields exactly 6 bytes, byte 0 being the
palette value OR 0x80 OR (0x40 if filled) and bytes 1-5 the five fields
biased by +1; decoding those 6 bytes recovers exactly the constructing
fields (for fields that fit a byte after the bias). -/
theorem bar_encode_roundtrip (b : Bar)
    (hx : 0 ≤ b.x ∧ b.x < 255) (hy : 0 ≤ b.y ∧ b.y < 255)
    (hw : 0 ≤ b.w ∧ b.w < 255) (hh : 0 ≤ b.h ∧ b.h < 255)
    (hs : 0 ≤ b.skip ∧ b.skip < 255) :
    (Bar.encode b).length = 6 ∧
    (Bar.encode b).head? =
      some (b.c.val ||| 128 ||| (if b.filled then 64 else 0)) ∧
    Bar.decode (Bar.encode b) =
      some ⟨b.c.val, b.x.toNat, b.y.toNat, b.w.toNat, b.h.toNat,
            b.skip.toNat, b.filled⟩ := by
  obtain ⟨bx, byy, bw, bh, bsk, bf, bc⟩ := b
  simp only at hx hy hw hh hs
  have hbyte : ∀ z : ℤ, 0 ≤ z → z < 255 → byteOf (z + 1) = z.toNat + 1 := by
    intro z h0 h1
    unfold byteOf
    rw [Int.emod_eq_of_lt (by omega) (by omega)]
    omega
  have e1 := hbyte bx hx.1 hx.2
  have e2 := hbyte byy hy.1 hy.2
  have e3 := hbyte bw hw.1 hw.2
  have e4 := hbyte bh hh.1 hh.2
  have e5 := hbyte bsk hs.1 hs.2
  refine ⟨rfl, rfl, ?_⟩
  cases bc <;> cases bf <;>
    simp [Bar.encode, Bar.decode, Color.val, e1, e2, e3, e4, e5] <;>
    decide

/-- Witness for C6 at the spec's concrete glyph
`(x=3, y=0, w=10, h=2, skip=0, filled=true, color=Green)`. -/
theorem bar_encode_roundtrip_witness :
    Bar.decode (Bar.encode ⟨3, 0, 10, 2, 0, true, Color.GREEN⟩) =
      some ⟨8, 3, 0, 10, 2, 0, true⟩ := by
  have h := bar_encode_roundtrip ⟨3, 0, 10, 2, 0, true, Color.GREEN⟩
    (by decide) (by decide) (by decide) (by decide) (by decide)
  exact h.2.2

/-- The computed display state of `Battery` (dwmstatus.cpp lines 897-899). -/
structure BatteryState where
  percent : ℤ
  minutes : ℤ
  present : Bool
  direction : Char

/-- C `int(double)` cast on a finite value: truncation toward zero. -/
def cint (q : ℚ) : ℤ := if 0 ≤ q then ⌊q⌋ else ⌈q⌉

/-- `Battery::Battery` (dwmstatus.cpp lines 902-964) after summing the
per-device readings: `energy_now`, `energy_full` and `power` are the sums
over present devices, `ac_present` the AC online flag, `present` whether
any device was present.  Computes percent with the full-charge snap
(`100 - dpercent < 0.5` forces 100), then direction/minutes, then clamps
negative minutes to zero. -/
def Battery.compute (energy_now energy_full power ac_present : ℤ)
    (present : Bool) : BatteryState :=
  let dpercent : ℚ := 100 * (energy_now : ℚ) / (energy_full : ℚ)
  let percent : ℤ := if 100 - dpercent < 1/2 then 100 else cint dpercent
  let dm : Char × ℤ :=
    if ac_present = 1 then
      if percent = 100 then ('=', 0)
      else ('+', cint (60 * ((energy_full : ℚ) - (energy_now : ℚ)) / (power : ℚ)))
    else ('-', cint (60 * (energy_now : ℚ) / (power : ℚ)))
  { percent := percent,
    minutes := if dm.2 < 0 then 0 else dm.2,
    present := present,
    direction := dm.1 }

/-- Zero-pad to two characters, as `std::setw(2)` with fill '0' does for
the minutes field. -/
def zpad2 (s : String) : String := if s.length < 2 then "0" ++ s else s

/-- `Battery::operator std::string` (dwmstatus.cpp lines 978-987):
direction, percent, "%", then a " H:MM" time field unless the battery
reads 100% without discharging. -/
def Battery.render (b : BatteryState) : String :=
  let base := toString b.direction ++ toString b.percent ++ "%"
  if b.percent ≠ 100 ∨ b.direction = '-' then
    base ++ " " ++ toString (b.minutes / 60) ++ ":" ++
      zpad2 (toString (b.minutes % 60))
  else base

/-- C5: for `energy_now=996, energy_full=1000, ac_online=1` the battery
percent snaps to 100 (the raw 99.6% is within 0.5 of full), the direction
is '=' with 0 minutes, and the rendering is exactly "=100%" with no
trailing time field, whatever the power reading. -/
theorem battery_full_snap_render (power : ℤ) :
    (Battery.compute 996 1000 power 1 true).percent = 100 ∧
    (Battery.compute 996 1000 power 1 true).direction = '=' ∧
    (Battery.compute 996 1000 power 1 true).minutes = 0 ∧
    Battery.render (Battery.compute 996 1000 power 1 true) = "=100%" := by
  have hb : Battery.compute 996 1000 power 1 true =
      { percent := 100, minutes := 0, present := true, direction := '=' } := by
    simp only [Battery.compute]
    norm_num
  rw [hb]
  refine ⟨rfl, rfl, rfl, ?_⟩
  rfl

/-- `Separator::color` (dwmstatus.cpp line 590). -/
def sepColor : Color := Color.NORMAL

/-- `Separator::operator std::string` (dwmstatus.cpp line 591). -/
def sepText : List Nat := strBytes "::"

/-- A streamed `Separator()`: normal severity, so the bare "::" bytes. -/
def sepEmit : List Nat := metricEmit sepColor sepText

/-- The v2 compose loop in `main` (dwmstatus.cpp lines 1258-1273): CPU,
Memory, Net, separator, Temp, separator, then Wifi and Battery each
followed by a separator only when present, then a space (byte 32) and the
date.  Every metric goes through `operator<<` with its own color and
rendered text. -/
def composeLine (cpuC : Color) (cpu : List Nat) (memC : Color) (mem : List Nat)
    (netC : Color) (net : List Nat) (tempC : Color) (temp : List Nat)
    (wifiPresent : Bool) (wifiC : Color) (wifi : List Nat)
    (batPresent : Bool) (batC : Color) (bat : List Nat)
    (dtC : Color) (dt : List Nat) : List Nat :=
  metricEmit cpuC cpu ++ metricEmit memC mem ++ metricEmit netC net ++
  sepEmit ++ metricEmit tempC temp ++ sepEmit ++
  (if wifiPresent then metricEmit wifiC wifi ++ sepEmit else []) ++
  (if batPresent then metricEmit batC bat ++ sepEmit else []) ++
  [32] ++ metricEmit dtC dt

/-- C7: when Wifi or Battery reports absent, the composed line is exactly
the concatenation of the remaining segments in the fixed order: the absent
metric's text and its trailing "::" separator are gone, everything else is
unchanged. -/
theorem compose_omits_absent_metrics
    (cpuC memC netC tempC wifiC batC dtC : Color)
    (cpu mem net temp wifi bat dt : List Nat) :
    (composeLine cpuC cpu memC mem netC net tempC temp false wifiC wifi
        false batC bat dtC dt =
      metricEmit cpuC cpu ++ metricEmit memC mem ++ metricEmit netC net ++
      sepEmit ++ metricEmit tempC temp ++ sepEmit ++ [32] ++
      metricEmit dtC dt) ∧
    (composeLine cpuC cpu memC mem netC net tempC temp false wifiC wifi
        true batC bat dtC dt =
      metricEmit cpuC cpu ++ metricEmit memC mem ++ metricEmit netC net ++
      sepEmit ++ metricEmit tempC temp ++ sepEmit ++
      (metricEmit batC bat ++ sepEmit) ++ [32] ++ metricEmit dtC dt) ∧
    (composeLine cpuC cpu memC mem netC net tempC temp true wifiC wifi
        false batC bat dtC dt =
      metricEmit cpuC cpu ++ metricEmit memC mem ++ metricEmit netC net ++
      sepEmit ++ metricEmit tempC temp ++ sepEmit ++
      (metricEmit wifiC wifi ++ sepEmit) ++ [32] ++ metricEmit dtC dt) := by
  refine ⟨?_, ?_, ?_⟩ <;> simp [composeLine]

/-- The per-core jiffie counters held by `Cpuinfo` (dwmstatus.cpp lines
650-654): current and previous-tick values of the user (incl. nice),
system, io-wait and total counts, indexed by core (0 is the aggregate). -/
structure CpuState where
  user_cur : ℕ → ℕ
  sys_cur : ℕ → ℕ
  io_cur : ℕ → ℕ
  total_cur : ℕ → ℕ
  user_last : ℕ → ℕ
  sys_last : ℕ → ℕ
  io_last : ℕ → ℕ
  total_last : ℕ → ℕ

/-- Value of a C `size_t` expression: the integer reduced modulo 2^64. -/
def w64 (z : ℤ) : ℕ := (z % (2 ^ 64 : ℤ)).toNat

/-- `Cpuinfo::pct` (dwmstatus.cpp lines 706-708): `int(100 * double(Δuser +
Δsys) / double(Δtotal))` with `size_t` deltas.  A zero elapsed total makes
the float division produce NaN and the int cast undefined behavior,
modelled as `none`. -/
def Cpuinfo.pct (s : CpuState) (i : ℕ) : Option ℤ :=
  if w64 ((s.total_cur i : ℤ) - s.total_last i) = 0 then none
  else some (cint (100 *
    (w64 ((s.user_cur i : ℤ) - s.user_last i + s.sys_cur i - s.sys_last i) : ℚ) /
    (w64 ((s.total_cur i : ℤ) - s.total_last i) : ℚ)))

/-- `Cpuinfo::user` (dwmstatus.cpp lines 709-711), same shape as `pct`. -/
def Cpuinfo.user (s : CpuState) (i : ℕ) : Option ℤ :=
  if w64 ((s.total_cur i : ℤ) - s.total_last i) = 0 then none
  else some (cint (100 * (w64 ((s.user_cur i : ℤ) - s.user_last i) : ℚ) /
    (w64 ((s.total_cur i : ℤ) - s.total_last i) : ℚ)))

/-- `Cpuinfo::sys` (dwmstatus.cpp lines 712-714). -/
def Cpuinfo.sysp (s : CpuState) (i : ℕ) : Option ℤ :=
  if w64 ((s.total_cur i : ℤ) - s.total_last i) = 0 then none
  else some (cint (100 * (w64 ((s.sys_cur i : ℤ) - s.sys_last i) : ℚ) /
    (w64 ((s.total_cur i : ℤ) - s.total_last i) : ℚ)))

/-- `Cpuinfo::io` (dwmstatus.cpp lines 715-717). -/
def Cpuinfo.io (s : CpuState) (i : ℕ) : Option ℤ :=
  if w64 ((s.total_cur i : ℤ) - s.total_last i) = 0 then none
  else some (cint (100 * (w64 ((s.io_cur i : ℤ) - s.io_last i) : ℚ) /
    (w64 ((s.total_cur i : ℤ) - s.total_last i) : ℚ)))

/-- `Cpuinfo::color` (dwmstatus.cpp lines 718-720): always `NORMAL`. -/
def Cpuinfo.color (_s : CpuState) : Color := Color.NORMAL

/-- The band mapping inside `Cpuinfo::color_for` (dwmstatus.cpp lines
721-732). -/
def cpuBand (p : ℤ) : Color :=
  if p > 90 then Color.RED
  else if p > 75 then Color.ORANGE
  else if p > 50 then Color.YELLOW
  else if p > 10 then Color.GREEN
  else Color.BLUE

/-- `Cpuinfo::color_for`: the band of `pct(i)`; undefined when `pct(i)`
is. -/
def Cpuinfo.color_for (s : CpuState) (i : ℕ) : Option Color :=
  (Cpuinfo.pct s i).map cpuBand

/-- Bytes of a C `int` printed through the stream. -/
def intBytes (z : ℤ) : List Nat := strBytes (toString z)

/-- Sequences optional byte chunks in order, concatenating; one undefined
chunk poisons the whole result. -/
def optionAll : List (Option (List Nat)) → Option (List Nat)
  | [] => some []
  | none :: _ => none
  | some x :: rest => (optionAll rest).map (fun r => x ++ r)

/-- One per-core bar of the CPU block (dwmstatus.cpp lines 741-748):
`Bar(0, 2+(i-1)*3, 40*pct(i)/100, 2, i == nelts-1 ? 41 : 0, true,
color_for(i))`. -/
def Cpuinfo.barAt (s : CpuState) (nelts i : ℕ) : Option (List Nat) :=
  match Cpuinfo.pct s i, Cpuinfo.color_for s i with
  | some p, some ci =>
    some (Bar.encode ⟨0, 2 + ((i : ℤ) - 1) * 3, 40 * p / 100, 2,
                      if i = nelts - 1 then 41 else 0, true, ci⟩)
  | _, _ => none

/-- `Cpuinfo::operator std::string` (dwmstatus.cpp lines 733-751): the
aggregate user/sys/io percentages inside a `ColorScope` keyed by
`color_for(0)`, then one bar per remaining core (`i` from 1 to
`nelts-1`). -/
def Cpuinfo.render (s : CpuState) (nelts : ℕ) : Option (List Nat) :=
  match Cpuinfo.color_for s 0, Cpuinfo.user s 0, Cpuinfo.sysp s 0,
        Cpuinfo.io s 0,
        optionAll ((List.range' 1 (nelts - 1)).map (Cpuinfo.barAt s nelts)) with
  | some c0, some u0, some s0, some i0, some bars =>
    some (colorScope c0 (intBytes u0 ++ strBytes "% " ++ intBytes s0 ++
          strBytes "% " ++ intBytes i0 ++ strBytes "%") ++ bars)
  | _, _, _, _, _ => none

/-- A core state whose jiffie counters did not advance between ticks. -/
def cpuStalled : CpuState :=
  ⟨fun _ => 50, fun _ => 10, fun _ => 5, fun _ => 1000,
   fun _ => 50, fun _ => 10, fun _ => 5, fun _ => 1000⟩

/-- C4: with `total_now == total_prev` (no elapsed jiffies) `Cpuinfo::pct`
divides 0.0 by 0.0 and casts the NaN to `int`, an undefined result — it
does not produce the previous/zero value the spec requires. -/
theorem cpu_pct_no_elapsed_undefined :
    Cpuinfo.pct cpuStalled 0 = none := rfl

/-- `cpuBand` never yields the `NORMAL` band. -/
theorem cpuBand_ne_normal (p : ℤ) : cpuBand p ≠ Color.NORMAL := by
  unfold cpuBand
  split_ifs <;> decide

/-- Sequencing chunks that are all defined is defined. -/
theorem optionAll_map_some (l : List ℕ) (f : ℕ → Option (List Nat))
    (h : ∀ x ∈ l, ∃ y, f x = some y) :
    ∃ ys, optionAll (l.map f) = some ys := by
  induction l with
  | nil => exact ⟨[], rfl⟩
  | cons a t ih =>
    obtain ⟨y, hy⟩ := h a (List.mem_cons_self a t)
    obtain ⟨ys, hys⟩ := ih (fun x hx => h x (List.mem_cons_of_mem a hx))
    exact ⟨y ++ ys, by simp [optionAll, hy, hys]⟩

/-- C10: `Cpuinfo::color` is `NORMAL` for every sampled state, so the
stream wrapper adds no outer markers around the CPU block; the per-segment
coloring is embedded inside the rendered string, whose first byte is the
internal `ColorScope` marker of `color_for(0)` — never the `NORMAL`
band. -/
theorem cpu_block_not_wrapped (s : CpuState) (nelts : ℕ)
    (h : ∀ i, i < nelts → w64 ((s.total_cur i : ℤ) - s.total_last i) ≠ 0)
    (hn : 0 < nelts) :
    Cpuinfo.color s = Color.NORMAL ∧
    (∀ txt, metricEmit (Cpuinfo.color s) txt = txt) ∧
    ∃ bs c, Cpuinfo.render s nelts = some bs ∧
      Cpuinfo.color_for s 0 = some c ∧ c ≠ Color.NORMAL ∧
      bs.head? = some c.val := by
  refine ⟨rfl, fun txt => by simp [metricEmit, Cpuinfo.color], ?_⟩
  have h0 := h 0 hn
  obtain ⟨p, hp⟩ : ∃ p, Cpuinfo.pct s 0 = some p := by
    unfold Cpuinfo.pct
    rw [if_neg h0]
    exact ⟨_, rfl⟩
  have hc : Cpuinfo.color_for s 0 = some (cpuBand p) := by
    unfold Cpuinfo.color_for
    rw [hp]
    rfl
  obtain ⟨u0, hu⟩ : ∃ u, Cpuinfo.user s 0 = some u := by
    unfold Cpuinfo.user
    rw [if_neg h0]
    exact ⟨_, rfl⟩
  obtain ⟨s0, hsy⟩ : ∃ v, Cpuinfo.sysp s 0 = some v := by
    unfold Cpuinfo.sysp
    rw [if_neg h0]
    exact ⟨_, rfl⟩
  obtain ⟨i0, hio⟩ : ∃ v, Cpuinfo.io s 0 = some v := by
    unfold Cpuinfo.io
    rw [if_neg h0]
    exact ⟨_, rfl⟩
  obtain ⟨bars, hbars⟩ :
      ∃ bars, optionAll ((List.range' 1 (nelts - 1)).map
        (Cpuinfo.barAt s nelts)) = some bars := by
    apply optionAll_map_some
    intro x hx
    have hx1 : 1 ≤ x ∧ x < 1 + (nelts - 1) := List.mem_range'_1.mp hx
    have hxn : x < nelts := by omega
    obtain ⟨q, hq⟩ : ∃ q, Cpuinfo.pct s x = some q := by
      unfold Cpuinfo.pct
      rw [if_neg (h x hxn)]
      exact ⟨_, rfl⟩
    have hcx : Cpuinfo.color_for s x = some (cpuBand q) := by
      unfold Cpuinfo.color_for
      rw [hq]
      rfl
    refine ⟨Bar.encode ⟨0, 2 + ((x : ℤ) - 1) * 3, 40 * q / 100, 2,
        if x = nelts - 1 then 41 else 0, true, cpuBand q⟩, ?_⟩
    unfold Cpuinfo.barAt
    rw [hq, hcx]
  refine ⟨colorScope (cpuBand p) (intBytes u0 ++ strBytes "% " ++
      intBytes s0 ++ strBytes "% " ++ intBytes i0 ++ strBytes "%") ++ bars,
    cpuBand p, ?_, hc, cpuBand_ne_normal p, ?_⟩
  · unfold Cpuinfo.render
    rw [hc, hu, hsy, hio, hbars]
  · rw [colorScope, if_pos (cpuBand_ne_normal p), List.cons_append]
    rfl

/-- A core state with advancing counters, for the C10 witness. -/
def cpuSample : CpuState :=
  ⟨fun _ => 80, fun _ => 20, fun _ => 5, fun _ => 200,
   fun _ => 30, fun _ => 10, fun _ => 0, fun _ => 100⟩

/-- Witness for C10 at a concrete two-entry state. -/
theorem cpu_block_not_wrapped_witness :
    ∃ bs c, Cpuinfo.render cpuSample 2 = some bs ∧
      Cpuinfo.color_for cpuSample 0 = some c ∧ c ≠ Color.NORMAL ∧
      bs.head? = some c.val := by
  have hadv : ∀ i, i < 2 →
      w64 ((cpuSample.total_cur i : ℤ) - cpuSample.total_last i) ≠ 0 := by
    intro i _
    show w64 ((200 : ℤ) - (100 : ℤ)) ≠ 0
    decide
  exact (cpu_block_not_wrapped cpuSample 2 hadv (by decide)).2.2

/-- The `Net` delta ring (dwmstatus.cpp lines 1148-1153): rx/tx byte
counters and timestamps (whole seconds, the unit `duration_cast<seconds>`
truncates to), rolling over slots `0..59`, plus the tick counter `i`. -/
structure NetState where
  rx : ℕ → ℕ
  tx : ℕ → ℕ
  t : ℕ → ℤ
  i : ℕ

/-- `Net::Net` (dwmstatus.cpp lines 1172-1175): zeroed counters, `i = 0`. -/
def Net.init : NetState := ⟨fun _ => 0, fun _ => 0, fun _ => 0, 0⟩

/-- `Net::next` (dwmstatus.cpp lines 1155-1169): record the sampled
timestamp and rx/tx counters at slot `i % 60`, then advance `i`.  The
sampled values are parameters (the code reads them from
`/proc/net/dev`). -/
def Net.next (s : NetState) (now : ℤ) (rxv txv : ℕ) : NetState :=
  { rx := Function.update s.rx (s.i % 60) rxv,
    tx := Function.update s.tx (s.i % 60) txv,
    t := Function.update s.t (s.i % 60) now,
    i := s.i + 1 }

/-- The rx band of the current-rate block (dwmstatus.cpp lines
1191-1199). -/
def rxColor (r : ℚ) : Color :=
  if r > 4500 then Color.RED
  else if r > 2000 then Color.ORANGE
  else if r > 1000 then Color.YELLOW
  else if r > 100 then Color.GREEN
  else Color.BLUE

/-- The tx band of the current-rate block (dwmstatus.cpp lines
1208-1216). -/
def txColor (r : ℚ) : Color :=
  if r > 1000 then Color.RED
  else if r > 500 then Color.ORANGE
  else if r > 100 then Color.YELLOW
  else if r > 50 then Color.GREEN
  else Color.BLUE

/-- Content of a non-blank `Net` rendering: elapsed seconds between the two
latest samples, both current rates in KiB/s (numeric formatting abstracted
to the exact rational), their bands, and the encoded sparkline bars. -/
structure NetRates where
  secs : ℤ
  rx_rate : ℚ
  tx_rate : ℚ
  rxC : Color
  txC : Color
  bars : List (List Nat)

/-- The historical sparkline loop (dwmstatus.cpp lines 1225-1246): slots
`j` from `i >= 60 ? i-60+3 : 3` to `i-1`, skipping zero-duration deltas;
each yields a green rx bar and a red tx bar with piecewise-quantized
heights (`max_rx` = 50 Mbit/s = 6553600 B/s, `max_tx` = 5 Mbit/s = 655360
B/s). -/
def Net.bars (s : NetState) : List (List Nat) :=
  (List.range' (if s.i ≥ 60 then s.i - 60 + 3 else 3)
      (s.i - (if s.i ≥ 60 then s.i - 60 + 3 else 3))).filterMap fun j =>
    let cur := j % 60
    let prev := (j - 1) % 60
    let secs := s.t cur - s.t prev
    if secs = 0 then none
    else
      let rx_rate : ℚ := (w64 ((s.rx cur : ℤ) - s.rx prev) : ℚ) / (secs : ℚ)
      let tx_rate : ℚ := (w64 ((s.tx cur : ℤ) - s.tx prev) : ℚ) / (secs : ℚ)
      let rh := min 8 (cint (if rx_rate < 102400 then 3 * rx_rate / 102400
        else if rx_rate < 1048576 then 3 + 3 * rx_rate / 1048576
        else 6 + 2 * rx_rate / 6553600))
      let th := min 4 (cint (if tx_rate < 10240 then 2 * tx_rate / 10240
        else 2 + 2 * tx_rate / 655360))
      some (Bar.encode ⟨0, 8 - rh, 1, rh, 0, true, Color.GREEN⟩ ++
            Bar.encode ⟨0, 9, 1, th, 1, true, Color.RED⟩)

/-- The current-rate block of a non-blank rendering (dwmstatus.cpp lines
1184-1223): the two latest slots, their whole-second gap, and the KiB/s
rates. -/
def Net.curRates (s' : NetState) : NetRates :=
  let cur := (s'.i - 1) % 60
  let prev := (s'.i - 2) % 60
  let secs := s'.t cur - s'.t prev
  let rx_rate : ℚ := ((w64 ((s'.rx cur : ℤ) - s'.rx prev) : ℚ) / 1024) / (secs : ℚ)
  let tx_rate : ℚ := ((w64 ((s'.tx cur : ℤ) - s'.tx prev) : ℚ) / 1024) / (secs : ℚ)
  ⟨secs, rx_rate, tx_rate, rxColor rx_rate, txColor tx_rate, Net.bars s'⟩

/-- `Net::operator std::string` (dwmstatus.cpp lines 1177-1248): sample via
`next()`, then render blank (`none`) while `i < 3`, otherwise the rate
content. -/
def Net.tick (s : NetState) (now : ℤ) (rxv txv : ℕ) :
    NetState × Option NetRates :=
  if (Net.next s now rxv txv).i < 3 then (Net.next s now rxv txv, none)
  else (Net.next s now rxv txv, some (Net.curRates (Net.next s now rxv txv)))

/-- State of the ring after `m` ticks of the v2 main loop, where tick `k`
(1-based) samples `(ts k, rxs k, txs k)`. -/
def Net.runState (ts : ℕ → ℤ) (rxs txs : ℕ → ℕ) : ℕ → NetState
  | 0 => Net.init
  | m + 1 => (Net.tick (Net.runState ts rxs txs m) (ts (m + 1)) (rxs (m + 1))
      (txs (m + 1))).1

/-- The rendering produced by tick `m` (1-based; index 0 is unused). -/
def Net.runOut (ts : ℕ → ℤ) (rxs txs : ℕ → ℕ) : ℕ → Option NetRates
  | 0 => none
  | m + 1 => (Net.tick (Net.runState ts rxs txs m) (ts (m + 1)) (rxs (m + 1))
      (txs (m + 1))).2

/-- Both branches of `tick` carry the advanced state. -/
theorem Net.tick_fst (s : NetState) (now : ℤ) (rxv txv : ℕ) :
    (Net.tick s now rxv txv).1 = Net.next s now rxv txv := by
  unfold Net.tick
  split <;> rfl

/-- Unfolding one tick of the run. -/
theorem Net.runState_succ (ts : ℕ → ℤ) (rxs txs : ℕ → ℕ) (k : ℕ) :
    Net.runState ts rxs txs (k + 1) =
      Net.next (Net.runState ts rxs txs k) (ts (k + 1)) (rxs (k + 1))
        (txs (k + 1)) := by
  show (Net.tick _ _ _ _).1 = _
  exact Net.tick_fst _ _ _ _

/-- After `m` ticks the counter is `m`. -/
theorem Net.runState_i (ts : ℕ → ℤ) (rxs txs : ℕ → ℕ) :
    ∀ m, (Net.runState ts rxs txs m).i = m
  | 0 => rfl
  | m + 1 => by
    rw [Net.runState_succ]
    show (Net.runState ts rxs txs m).i + 1 = m + 1
    rw [Net.runState_i ts rxs txs m]

/-- Tick `k+1` stores its timestamp at slot `k % 60`. -/
theorem Net.runState_slot (ts : ℕ → ℤ) (rxs txs : ℕ → ℕ) (k : ℕ) :
    (Net.runState ts rxs txs (k + 1)).t (k % 60) = ts (k + 1) := by
  rw [Net.runState_succ]
  show Function.update (Net.runState ts rxs txs k).t
    ((Net.runState ts rxs txs k).i % 60) (ts (k + 1)) (k % 60) = ts (k + 1)
  rw [Net.runState_i]
  simp

/-- The previous tick's timestamp survives the next tick's write (the two
slots are adjacent in a ring of size 60). -/
theorem Net.runState_slot_prev (ts : ℕ → ℤ) (rxs txs : ℕ → ℕ) (k : ℕ)
    (hk : 1 ≤ k) :
    (Net.runState ts rxs txs (k + 1)).t ((k - 1) % 60) = ts k := by
  obtain ⟨j, rfl⟩ : ∃ j, k = j + 1 := ⟨k - 1, by omega⟩
  rw [Net.runState_succ]
  show Function.update (Net.runState ts rxs txs (j + 1)).t
    ((Net.runState ts rxs txs (j + 1)).i % 60) (ts (j + 2)) ((j + 1 - 1) % 60) =
    ts (j + 1)
  rw [Net.runState_i]
  rw [Function.update_noteq (by omega)]
  simpa using Net.runState_slot ts rxs txs j

/-- C3: for any strictly increasing counter sequences and strictly
increasing (hence non-zero-gap) sample times, the Net metric renders blank
on ticks 1 and 2 after construction and a defined rate from tick 3 on:
the output exists and its rate denominator — the whole-second gap between
the two latest samples — is non-zero. -/
theorem net_blank_until_third_tick (ts : ℕ → ℤ) (rxs txs : ℕ → ℕ)
    (hts : ∀ k, ts k < ts (k + 1)) (hrx : StrictMono rxs)
    (htx : StrictMono txs) :
    Net.runOut ts rxs txs 1 = none ∧ Net.runOut ts rxs txs 2 = none ∧
    (∀ m, 3 ≤ m → ∃ r, Net.runOut ts rxs txs m = some r ∧
      r.secs = ts m - ts (m - 1) ∧ r.secs ≠ 0) := by
  refine ⟨?_, ?_, ?_⟩
  · show (Net.tick (Net.runState ts rxs txs 0) (ts 1) (rxs 1) (txs 1)).2 = none
    unfold Net.tick
    rw [if_pos]
    show (Net.runState ts rxs txs 0).i + 1 < 3
    rw [Net.runState_i]
    omega
  · show (Net.tick (Net.runState ts rxs txs 1) (ts 2) (rxs 2) (txs 2)).2 = none
    unfold Net.tick
    rw [if_pos]
    show (Net.runState ts rxs txs 1).i + 1 < 3
    rw [Net.runState_i]
    omega
  · intro m hm
    obtain ⟨k, rfl⟩ : ∃ k, m = k + 1 := ⟨m - 1, by omega⟩
    have hk2 : 2 ≤ k := by omega
    have hout : Net.runOut ts rxs txs (k + 1) =
        some (Net.curRates (Net.runState ts rxs txs (k + 1))) := by
      show (Net.tick (Net.runState ts rxs txs k) (ts (k + 1)) (rxs (k + 1))
        (txs (k + 1))).2 = _
      unfold Net.tick
      rw [if_neg]
      · rw [← Net.runState_succ]
      · show ¬ (Net.runState ts rxs txs k).i + 1 < 3
        rw [Net.runState_i]
        omega
    have hsecs : (Net.curRates (Net.runState ts rxs txs (k + 1))).secs =
        ts (k + 1) - ts k := by
      show (Net.runState ts rxs txs (k + 1)).t
          (((Net.runState ts rxs txs (k + 1)).i - 1) % 60) -
        (Net.runState ts rxs txs (k + 1)).t
          (((Net.runState ts rxs txs (k + 1)).i - 2) % 60) = ts (k + 1) - ts k
      rw [Net.runState_i]
      rw [show k + 1 - 1 = k from by omega, show k + 1 - 2 = k - 1 from by omega]
      rw [Net.runState_slot, Net.runState_slot_prev ts rxs txs k (by omega)]
    refine ⟨Net.curRates (Net.runState ts rxs txs (k + 1)), hout, ?_, ?_⟩
    · rw [hsecs, Nat.add_sub_cancel]
    · rw [hsecs]
      have := hts k
      omega

/-- Witness for C3 with unit-spaced sample times and identity counters. -/
theorem net_blank_until_third_tick_witness :
    Net.runOut (fun k => (k : ℤ)) (fun k => k) (fun k => k) 1 = none ∧
    Net.runOut (fun k => (k : ℤ)) (fun k => k) (fun k => k) 2 = none ∧
    ∃ r, Net.runOut (fun k => (k : ℤ)) (fun k => k) (fun k => k) 3 = some r ∧
      r.secs ≠ 0 := by
  have h := net_blank_until_third_tick (fun k => (k : ℤ)) (fun k => k)
    (fun k => k)
    (fun k => by
      show (k : ℤ) < ((k + 1 : ℕ) : ℤ)
      exact_mod_cast Nat.lt_succ_self k)
    (fun a b hab => hab) (fun a b hab => hab)
  obtain ⟨r, hr, _, hne⟩ := h.2.2 3 (by norm_num)
  exact ⟨h.1, h.2.1, r, hr, hne⟩
